import Mathlib

/-!
Shallow embedding of the Trail Service API (FastAPI application in
src/app): token codec and external credential verifier
(auth_service.py), user directory (user_service.py), and the trail CRUD
route handlers (main.py).  Machine state is modelled explicitly: the
relational store is a pair of row lists, a pyodbc connection carries a
committed and a pending snapshot, and every handler additionally
returns the list of database actions it performed, in order, so that
transaction discipline (commit/rollback ordering) is itself provable.
Time is a natural number of seconds; datetime arithmetic becomes Nat
addition.
-/

namespace TrailService

/-- Decidable equality for Except, so handler outcomes can be
evaluated on concrete inputs. -/
instance exceptDecEq (ε α : Type) [DecidableEq ε] [DecidableEq α] :
    DecidableEq (Except ε α) := fun x y =>
  match x, y with
  | .ok a, .ok b =>
    if h : a = b then .isTrue (by rw [h])
    else .isFalse (fun hc => h (by injection hc))
  | .ok _, .error _ => .isFalse (fun hc => Except.noConfusion hc)
  | .error _, .ok _ => .isFalse (fun hc => Except.noConfusion hc)
  | .error e, .error f =>
    if h : e = f then .isTrue (by rw [h])
    else .isFalse (fun hc => h (by injection hc))

/-- Row of the CW1.User table: UserID int, Name, Email, Password. -/
structure UserRow where
  UserID : Int
  Name : String
  Email : String
  Password : String
deriving DecidableEq, Repr

/-- Row of the CW1.Trail table: TrailID int, TrailName, nullable
Description, DateCreated timestamp, CreatedBy int. -/
structure TrailRow where
  TrailID : Int
  TrailName : String
  Description : Option String
  DateCreated : Nat
  CreatedBy : Int
deriving DecidableEq, Repr

/-- The relational store: the two tables the handlers mutate. -/
structure DB where
  users : List UserRow
  trails : List TrailRow
deriving DecidableEq, Repr

/-- A pyodbc connection: {committed} is what the store holds durably,
{pending} is what this connection sees inside its open transaction.
conn.commit() copies pending over committed; conn.rollback() copies
committed over pending; statements act on pending. -/
structure Conn where
  committed : DB
  pending : DB
deriving DecidableEq, Repr

/-- One database action of a handler, recorded in order. -/
inductive DbAction where
  | exec (sql : String)
  | commit
  | rollback
deriving DecidableEq, Repr

/-- Errors a handler can surface: an HTTPException carrying a status
code and detail, or an exception that propagates out of the handler
uncaught (FastAPI then answers 500, but no handler code runs). -/
inductive ApiError where
  | http (statusCode : Nat) (detail : String)
  | unhandled (msg : String)
deriving DecidableEq, Repr

/-- str(e) on an HTTPException renders as "status: detail" (Starlette);
on a bare exception it is the message. -/
def errStr : ApiError → String
  | .http c d => toString c ++ ": " ++ d
  | .unhandled m => m

/-! ## Token codec (auth_service.py) -/

/-- The claim data the login flow embeds: sub (email), user_id, name. -/
structure TokenData where
  sub : String
  user_id : Int
  name : String
deriving DecidableEq, Repr

/-- A JWT payload: the claim data plus the absolute expiry instant. -/
structure TokenPayload where
  data : TokenData
  exp : Nat
deriving DecidableEq, Repr

/-- A token as the codec sees it: either a well-formed signed string
(carrying the payload, the secret it was signed with and the signing
algorithm named in its header) or a malformed string. -/
inductive Token where
  | signed (payload : TokenPayload) (secret : String) (alg : String)
  | malformed (raw : String)
deriving DecidableEq, Repr

/-- Failure kinds of JWT verification. -/
inductive JwtError where
  | expiredSignature
  | invalidSignature
  | decodeError
  | invalidAlgorithm
deriving DecidableEq, Repr

/-- jwt.encode: sign the payload with the symmetric secret. -/
def jwtEncode (payload : TokenPayload) (secret : String) (alg : String) : Token :=
  .signed payload secret alg

/-- Modelled from the spec: the PyJWT library (not part of src/)
verifies structure, algorithm and signature, and "fails with Expired
when current time exceeds embedded expiry; fails with Invalid for any
signature mismatch, malformed structure, or unsupported algorithm".
A malformed token, a disallowed algorithm or a secret mismatch is
rejected before the expiry check, so an inauthentic token never
reports Expired. -/
def jwtDecode (t : Token) (secret : String) (algs : List String) (now : Nat) :
    Except JwtError TokenPayload :=
  match t with
  | .malformed _ => .error .decodeError
  | .signed p s a =>
    if a ∉ algs then .error .invalidAlgorithm
    else if s ≠ secret then .error .invalidSignature
    else if p.exp < now then .error .expiredSignature
    else .ok p

/-- AuthUtils.create_access_token: copy the claims, compute the
absolute expiry from now plus the given delta (defaulting to the
configured TTL in minutes), add it as exp, and sign. -/
def create_access_token (data : TokenData) (expires_delta : Option Nat)
    (now : Nat) (secret : String) (alg : String) (defaultMinutes : Nat) : Token :=
  let expire : Nat :=
    match expires_delta with
    | some d => now + d
    | none => now + defaultMinutes * 60
  jwtEncode { data := data, exp := expire } secret alg

/-- AuthUtils.decode_token: jwt.decode with the shared secret and the
configured algorithm list; ExpiredSignatureError becomes 401 "Token
has expired", every other PyJWTError becomes 401 "Could not validate
credentials". -/
def decode_token (t : Token) (secret : String) (algs : List String) (now : Nat) :
    Except ApiError TokenPayload :=
  match jwtDecode t secret algs now with
  | .ok p => .ok p
  | .error .expiredSignature => .error (.http 401 "Token has expired")
  | .error _ => .error (.http 401 "Could not validate credentials")

/-! ## External credential verifier (auth_service.py) -/

/-- A JSON value as returned by response.json(), restricted to the
shapes the comparison in the source can distinguish: the body is
compared for structural equality with the list of strings
["Verified", "True"], so arrays of strings are kept exact and every
other JSON shape only needs to compare unequal to that list. -/
inductive JsonValue where
  | strArr (xs : List String)
  | otherShape (tag : String)
deriving DecidableEq, Repr

/-- The confirmation token the verifier demands. -/
def verifiedBody : JsonValue := .strArr ["Verified", "True"]

/-- Outcome of the outbound requests.post call: either the request
raised a RequestException (network/connection failure), or an HTTP
response with a status code and JSON body arrived. -/
inductive VerifyOutcome where
  | networkFailure
  | response (statusCode : Nat) (body : JsonValue)
deriving DecidableEq, Repr

/-- AuthUtils.verify_plymouth_credentials: on a response, return
whether status is 200 and the body equals ["Verified", "True"]; any
other status yields False; a RequestException is caught and re-raised
as HTTP 503. -/
def verify_plymouth_credentials (o : VerifyOutcome) : Except ApiError Bool :=
  match o with
  | .networkFailure =>
      .error (.http 503 "Could not connect to authentication service")
  | .response statusCode body =>
      if statusCode = 200 then .ok (decide (body = verifiedBody))
      else .ok false

/-! ## User directory (user_service.py) -/

/-- The user dict the service hands back: UserID, Name, Email. -/
structure UserView where
  user_id : Int
  name : String
  email : String
deriving DecidableEq, Repr

/-- SELECT MAX over an int column: none on an empty table. -/
def listMaxInt : List Int → Option Int
  | [] => none
  | x :: xs =>
    match listMaxInt xs with
    | none => some x
    | some m => some (max x m)

/-- UserService.get_user_by_email: SELECT UserID, Name, Email FROM
CW1.User WHERE Email = ?, fetchone; the first matching row, as a dict,
or None. -/
def get_user_by_email (db : DB) (email : String) : Option UserView :=
  match db.users.find? (fun r => r.Email == email) with
  | some r => some { user_id := r.UserID, name := r.Name, email := r.Email }
  | none => none

/-- UserService.create_user: read MAX(UserID), assign max+1 (1 on an
empty table), INSERT the row with the sentinel password
external_auth, and commit; if the write raises a pyodbc.Error
(modelled by the {insertFails} oracle, with {errMsg} the error text),
roll back and raise HTTPException 500. -/
def create_user (conn : Conn) (email : String) (name : String)
    (insertFails : Bool) (errMsg : String) :
    Except ApiError UserView × Conn × List DbAction :=
  let maxId := listMaxInt (conn.pending.users.map (fun r => r.UserID))
  let new_id : Int :=
    match maxId with
    | none => 1
    | some m => m + 1
  if insertFails then
    (.error (.http 500 ("Error creating user: " ++ errMsg)),
     { conn with pending := conn.committed },
     [.exec "SELECT MAX(UserID) FROM CW1.User",
      .exec "INSERT INTO CW1.User", .rollback])
  else
    let row : UserRow :=
      { UserID := new_id, Name := name, Email := email, Password := "external_auth" }
    let pending' : DB := { conn.pending with users := conn.pending.users ++ [row] }
    (.ok { user_id := new_id, name := name, email := email },
     { committed := pending', pending := pending' },
     [.exec "SELECT MAX(UserID) FROM CW1.User",
      .exec "INSERT INTO CW1.User", .commit])

/-- Local part of an email: Python email.split('@')[0], the substring
before the first '@' (the whole string when no '@' occurs). -/
def localPartOfEmail (email : String) : String :=
  (email.splitOn "@").headD ""

/-- UserService.get_or_create_user: look the email up; on absence
derive the name (local part when the flag is set, else the full
email) and create. -/
def get_or_create_user (conn : Conn) (email : String)
    (extract_name_from_email : Bool) (insertFails : Bool) (errMsg : String) :
    Except ApiError UserView × Conn × List DbAction :=
  match get_user_by_email conn.pending email with
  | some u => (.ok u, conn, [.exec "SELECT User BY Email"])
  | none =>
    let name := if extract_name_from_email then localPartOfEmail email else email
    let (r, conn', tr) := create_user conn email name insertFails errMsg
    (r, conn', .exec "SELECT User BY Email" :: tr)

/-! ## Trail repository route handlers (main.py) -/

/-- PUT/POST request body: pydantic model TrailCreate, which admits
exactly a TrailName and an optional Description. -/
structure TrailCreate where
  TrailName : String
  Description : Option String := none
deriving DecidableEq, Repr

/-- SELECT * FROM CW1.Trail WHERE TrailID = ?, fetchone. -/
def lookupTrail (db : DB) (id : Int) : Option TrailRow :=
  db.trails.find? (fun t => t.TrailID == id)

/-- SELECT TOP 1 * FROM CW1.Trail ORDER BY TrailID DESC: a row whose
TrailID is the table maximum, or None on an empty table. -/
def latestTrail (db : DB) : Option TrailRow :=
  match listMaxInt (db.trails.map (fun t => t.TrailID)) with
  | none => none
  | some m => db.trails.find? (fun t => t.TrailID == m)

/-- Modelled from the spec: the stored procedure CW1.AddNewTrail
(relational-store collaborator, not in src/) inserts a Trail row with
the given name, description, creation timestamp and creator, the
TrailID being server-assigned (identity column: one more than the
current maximum, 1 on an empty table). -/
def nextTrailId (db : DB) : Int :=
  match listMaxInt (db.trails.map (fun t => t.TrailID)) with
  | none => 1
  | some m => m + 1

/-- The insertion performed by CW1.AddNewTrail: append the new row
with the server-assigned id. -/
def addNewTrailProc (db : DB) (name : String) (descr : Option String)
    (dateCreated : Nat) (createdBy : Int) : DB :=
  { db with trails := db.trails ++
      [{ TrailID := nextTrailId db, TrailName := name, Description := descr,
         DateCreated := dateCreated, CreatedBy := createdBy }] }

/-- Modelled from the spec: the stored procedure CW1.UpdateTrail
(relational-store collaborator, not in src/) receives only an id, a
name and a description and sets those two columns on the row with
that TrailID, leaving every other column and row unchanged. -/
def updateTrailProc (db : DB) (id : Int) (name : String) (descr : Option String) : DB :=
  { db with trails := db.trails.map (fun t =>
      if t.TrailID == id then
        { t with TrailName := name, Description := descr }
      else t) }

/-- Modelled from the spec: the stored procedure CW1.DeleteTrail
(relational-store collaborator, not in src/) hard-deletes the row
with the given TrailID. -/
def deleteTrailProc (db : DB) (id : Int) : DB :=
  { db with trails := db.trails.filter (fun t => !(t.TrailID == id)) }

/-- POST /api/trails handler create_trail: EXEC CW1.AddNewTrail with
the body fields, datetime.now() and the authenticated user's user_id
as CreatedBy; commit; read back the most recent row by descending
TrailID.  There is no try/except: a failing write (the {insertFails}
oracle) propagates out of the handler with no rollback. -/
def create_trail (trail : TrailCreate) (current_user : UserView)
    (conn : Conn) (now : Nat) (insertFails : Bool) :
    Except ApiError TrailRow × Conn × List DbAction :=
  if insertFails then
    (.error (.unhandled "AddNewTrail failed"), conn, [.exec "EXEC CW1.AddNewTrail"])
  else
    let pending' := addNewTrailProc conn.pending trail.TrailName trail.Description
      now current_user.user_id
    let conn' : Conn := { committed := pending', pending := pending' }
    match latestTrail pending' with
    | some t =>
        (.ok t, conn',
         [.exec "EXEC CW1.AddNewTrail", .commit, .exec "SELECT TOP 1 BY TrailID DESC"])
    | none =>
        (.error (.unhandled "no row returned"), conn',
         [.exec "EXEC CW1.AddNewTrail", .commit, .exec "SELECT TOP 1 BY TrailID DESC"])

/-- PUT /api/trails/:id handler update_trail: read the row's
CreatedBy first; 404 when absent, 403 when the requester is not the
owner, both before any write; otherwise EXEC CW1.UpdateTrail, commit
and return the row read back by id.  No try/except: a failing write
(the {updateFails} oracle) propagates with no rollback. -/
def update_trail (trail_id : Int) (trail : TrailCreate) (current_user : UserView)
    (conn : Conn) (updateFails : Bool) :
    Except ApiError TrailRow × Conn × List DbAction :=
  match lookupTrail conn.pending trail_id with
  | none =>
      (.error (.http 404 "Trail not found"), conn, [.exec "SELECT CreatedBy"])
  | some existing_trail =>
    if existing_trail.CreatedBy ≠ current_user.user_id then
      (.error (.http 403 "Not authorized to update this trail"), conn,
       [.exec "SELECT CreatedBy"])
    else if updateFails then
      (.error (.unhandled "UpdateTrail failed"), conn,
       [.exec "SELECT CreatedBy", .exec "EXEC CW1.UpdateTrail"])
    else
      let pending' := updateTrailProc conn.pending trail_id trail.TrailName trail.Description
      let conn' : Conn := { committed := pending', pending := pending' }
      match lookupTrail pending' trail_id with
      | some t =>
          (.ok t, conn',
           [.exec "SELECT CreatedBy", .exec "EXEC CW1.UpdateTrail", .commit,
            .exec "SELECT Trail BY id"])
      | none =>
          (.error (.unhandled "no row returned"), conn',
           [.exec "SELECT CreatedBy", .exec "EXEC CW1.UpdateTrail", .commit,
            .exec "SELECT Trail BY id"])

/-- DELETE /api/trails/:id handler delete_trail: the same ownership
check as update, then EXEC CW1.DeleteTrail, commit, and a success
message.  No try/except: a failing write (the {deleteFails} oracle)
propagates with no rollback. -/
def delete_trail (trail_id : Int) (current_user : UserView)
    (conn : Conn) (deleteFails : Bool) :
    Except ApiError String × Conn × List DbAction :=
  match lookupTrail conn.pending trail_id with
  | none =>
      (.error (.http 404 "Trail not found"), conn, [.exec "SELECT CreatedBy"])
  | some existing_trail =>
    if existing_trail.CreatedBy ≠ current_user.user_id then
      (.error (.http 403 "Not authorized to delete this trail"), conn,
       [.exec "SELECT CreatedBy"])
    else if deleteFails then
      (.error (.unhandled "DeleteTrail failed"), conn,
       [.exec "SELECT CreatedBy", .exec "EXEC CW1.DeleteTrail"])
    else
      let pending' := deleteTrailProc conn.pending trail_id
      let conn' : Conn := { committed := pending', pending := pending' }
      (.ok "Trail deleted successfully", conn',
       [.exec "SELECT CreatedBy", .exec "EXEC CW1.DeleteTrail", .commit])

/-! ## API layer: auth guard and login flow (main.py) -/

/-- The one 401 returned by the protected-route guard, whatever went
wrong (anti-enumeration: no distinguishing detail). -/
def credentials_exception : ApiError :=
  .http 401 "Could not validate credentials"

/-- get_current_user: decode the bearer token, take its sub claim,
look the email up in the User table; token-validation failure or an
absent user both collapse to the same 401 (every exception inside the
try, the detailed 401s from decode_token included, is caught and
replaced by credentials_exception). -/
def get_current_user (token : Token) (db : DB) (secret : String)
    (algs : List String) (now : Nat) : Except ApiError UserView :=
  match decode_token token secret algs now with
  | .error _ => .error credentials_exception
  | .ok payload =>
    match get_user_by_email db payload.data.sub with
    | none => .error credentials_exception
    | some user => .ok user

/-- OAuth2PasswordRequestForm: username (the email) and password. -/
structure LoginForm where
  username : String
  password : String
deriving DecidableEq, Repr

/-- Successful POST /token response body. -/
structure LoginResponse where
  access_token : Token
  token_type : String
  user : UserView
deriving DecidableEq, Repr

/-- POST /token handler login: verify with the Plymouth service (its
503 propagates; a False verdict raises 401); then, inside a try
catching every Exception as a generic 500 that wraps str(e), resolve
the local user with get_or_create_user and issue a token embedding
sub, user_id and name with the configured TTL (token issuance is pure
computation and raises nothing). -/
def login (form : LoginForm) (vo : VerifyOutcome) (conn : Conn)
    (insertFails : Bool) (errMsg : String) (now : Nat) (ttlMinutes : Nat)
    (secret : String) (alg : String) :
    Except ApiError LoginResponse × Conn × List DbAction :=
  match verify_plymouth_credentials vo with
  | .error e => (.error e, conn, [])
  | .ok false =>
      (.error (.http 401 "Incorrect email or password"), conn, [])
  | .ok true =>
    match get_or_create_user conn form.username true insertFails errMsg with
    | (.error e, conn', tr) =>
        (.error (.http 500 ("Error during user management: " ++ errStr e)), conn', tr)
    | (.ok user, conn', tr) =>
        let access_token := create_access_token
          { sub := form.username, user_id := user.user_id, name := user.name }
          (some (ttlMinutes * 60)) now secret alg 30
        (.ok { access_token := access_token, token_type := "bearer", user := user },
         conn', tr)

/-! ## Helper lemmas about SELECT MAX and row lookup -/

theorem listMaxInt_cons (x : Int) (xs : List Int) :
    listMaxInt (x :: xs) = some ((listMaxInt xs).elim x (fun m => max x m)) := by
  cases h : listMaxInt xs <;> simp [listMaxInt, h]

theorem listMaxInt_eq_none_iff (l : List Int) : listMaxInt l = none ↔ l = [] := by
  cases l with
  | nil => simp [listMaxInt]
  | cons x xs => simp [listMaxInt_cons]

theorem listMaxInt_le {l : List Int} {m : Int} (h : listMaxInt l = some m) :
    ∀ x ∈ l, x ≤ m := by
  induction l generalizing m with
  | nil => simp [listMaxInt] at h
  | cons y ys ih =>
    intro x hx
    rw [listMaxInt_cons] at h
    cases hys : listMaxInt ys with
    | none =>
      rw [hys] at h
      simp at h
      have hnil : ys = [] := (listMaxInt_eq_none_iff ys).mp hys
      subst hnil
      simp at hx
      omega
    | some my =>
      rw [hys] at h
      simp at h
      rcases List.mem_cons.mp hx with rfl | hx'
      · omega
      · have := ih hys x hx'
        omega

theorem listMaxInt_mem {l : List Int} {m : Int} (h : listMaxInt l = some m) : m ∈ l := by
  induction l generalizing m with
  | nil => simp [listMaxInt] at h
  | cons y ys ih =>
    rw [listMaxInt_cons] at h
    cases hys : listMaxInt ys with
    | none =>
      rw [hys] at h
      simp at h
      simp [h]
    | some my =>
      rw [hys] at h
      simp at h
      rcases max_choice y my with h1 | h1
    <;> rw [h1] at h
      · simp [h]
      · subst h
        exact List.mem_cons_of_mem y (ih hys)

theorem listMaxInt_append_some {l : List Int} {m : Int} (h : listMaxInt l = some m)
    (x : Int) : listMaxInt (l ++ [x]) = some (max m x) := by
  induction l generalizing m with
  | nil => simp [listMaxInt] at h
  | cons y ys ih =>
    rw [listMaxInt_cons] at h
    cases hys : listMaxInt ys with
    | none =>
      rw [hys] at h
      simp at h
      have hnil : ys = [] := (listMaxInt_eq_none_iff ys).mp hys
      subst hnil
      subst h
      simp [listMaxInt]
    | some my =>
      rw [hys] at h
      simp at h
      subst h
      have := ih hys
      rw [List.cons_append, listMaxInt_cons, this]
      simp [max_assoc]

theorem find?_trailId_none_of_ub {l : List TrailRow} {m : Int}
    (h : ∀ t ∈ l, t.TrailID ≤ m) {x : Int} (hx : m < x) :
    l.find? (fun t => t.TrailID == x) = none := by
  rw [List.find?_eq_none]
  intro t ht
  have := h t ht
  simp
  omega

theorem nextTrailId_gt (db : DB) : ∀ t ∈ db.trails, t.TrailID < nextTrailId db := by
  intro t ht
  cases hmax : listMaxInt (db.trails.map (fun t => t.TrailID)) with
  | none =>
    have hnil : db.trails = [] :=
      List.map_eq_nil_iff.mp ((listMaxInt_eq_none_iff _).mp hmax)
    rw [hnil] at ht
    simp at ht
  | some m =>
    have hle : t.TrailID ≤ m :=
      listMaxInt_le hmax _ (List.mem_map_of_mem (fun t => t.TrailID) ht)
    have hid : nextTrailId db = m + 1 := by
      unfold nextTrailId
      rw [hmax]
    omega

theorem latestTrail_addNew (db : DB) (n : String) (d : Option String)
    (now : Nat) (cb : Int) :
    latestTrail (addNewTrailProc db n d now cb) =
      some { TrailID := nextTrailId db, TrailName := n, Description := d,
             DateCreated := now, CreatedBy := cb } := by
  have hids : listMaxInt ((addNewTrailProc db n d now cb).trails.map
      (fun t => t.TrailID)) = some (nextTrailId db) := by
    unfold addNewTrailProc
    simp only [List.map_append, List.map_cons, List.map_nil]
    cases hmax : listMaxInt (db.trails.map (fun t => t.TrailID)) with
    | none =>
      have hnil : db.trails = [] :=
        List.map_eq_nil_iff.mp ((listMaxInt_eq_none_iff _).mp hmax)
      rw [hnil]
      simp [listMaxInt]
    | some m =>
      rw [listMaxInt_append_some hmax]
      have hid : nextTrailId db = m + 1 := by
        unfold nextTrailId
        rw [hmax]
      rw [hid]
      congr 1
      omega
  have hnone : db.trails.find? (fun t => t.TrailID == nextTrailId db) = none := by
    rw [List.find?_eq_none]
    intro t ht
    have := nextTrailId_gt db t ht
    simp
    omega
  unfold latestTrail
  simp only [hids]
  unfold addNewTrailProc
  rw [List.find?_append, hnone]
  simp [List.find?]

theorem lookupTrail_addNew_frame (db : DB) (n : String) (d : Option String)
    (now : Nat) (cb : Int) {j : Int} {t : TrailRow}
    (h : lookupTrail db j = some t) :
    lookupTrail (addNewTrailProc db n d now cb) j = some t := by
  unfold lookupTrail at *
  unfold addNewTrailProc
  rw [List.find?_append, h]
  rfl

theorem lookupTrail_updateProc (db : DB) (id : Int) (n : String) (d : Option String)
    (j : Int) :
    lookupTrail (updateTrailProc db id n d) j =
      (lookupTrail db j).map (fun t =>
        if t.TrailID == id then { t with TrailName := n, Description := d } else t) := by
  unfold lookupTrail updateTrailProc
  rw [List.find?_map]
  have hp : ((fun t : TrailRow => t.TrailID == j) ∘
      (fun t => if t.TrailID == id then { t with TrailName := n, Description := d }
                else t)) = (fun t : TrailRow => t.TrailID == j) := by
    funext t
    by_cases h : t.TrailID = id <;> simp [Function.comp, h]
  rw [hp]

theorem lookupTrail_deleteProc_self (db : DB) (id : Int) :
    lookupTrail (deleteTrailProc db id) id = none := by
  unfold lookupTrail deleteTrailProc
  rw [List.find?_eq_none]
  intro t ht
  have := (List.mem_filter.mp ht).2
  simpa using this

theorem lookupTrail_deleteProc_other (db : DB) (id j : Int) (hj : j ≠ id) :
    lookupTrail (deleteTrailProc db id) j = lookupTrail db j := by
  unfold lookupTrail deleteTrailProc
  simp only
  induction db.trails with
  | nil => rfl
  | cons t ts ih =>
    by_cases h : t.TrailID = id
    · have h1 : (t.TrailID == id) = true := by simp [h]
      have h2 : (t.TrailID == j) = false := beq_eq_false_iff_ne.mpr (by omega)
      simp [List.filter_cons, List.find?_cons, h1, h2, ih]
    · have h1 : (t.TrailID == id) = false := beq_eq_false_iff_ne.mpr h
      by_cases h2 : t.TrailID = j
      · have h3 : (t.TrailID == j) = true := by simp [h2]
        simp [List.filter_cons, List.find?_cons, h1, h3]
      · have h3 : (t.TrailID == j) = false := beq_eq_false_iff_ne.mpr h2
        simp [List.filter_cons, List.find?_cons, h1, h3, ih]

theorem lookupTrail_mem_self {db : DB} {j : Int} {t : TrailRow}
    (h : lookupTrail db j = some t) : t.TrailID = j := by
  unfold lookupTrail at h
  have := List.find?_some h
  simpa using this

theorem get_user_by_email_append {db : DB} {email : String} (row : UserRow)
    (h : get_user_by_email db email = none) (he : row.Email = email)
    (ts : List TrailRow) :
    get_user_by_email { users := db.users ++ [row], trails := ts } email =
      some { user_id := row.UserID, name := row.Name, email := row.Email } := by
  unfold get_user_by_email at *
  cases hf : db.users.find? (fun r => r.Email == email) with
  | some r => rw [hf] at h; simp at h
  | none =>
    simp only [List.find?_append, hf, Option.none_or]
    rw [List.find?_cons_of_pos _ (by simp [he])]

/-- The state produced by the INSERT in create_user: the new row
appended to the User table. -/
def insertUser (db : DB) (row : UserRow) : DB :=
  { users := db.users ++ [row], trails := db.trails }

theorem create_user_spec (conn : Conn) (email name errMsg : String) :
    ∃ nid : Int,
      create_user conn email name false errMsg =
        (.ok { user_id := nid, name := name, email := email },
         { committed := insertUser conn.pending
             { UserID := nid, Name := name, Email := email,
               Password := "external_auth" },
           pending := insertUser conn.pending
             { UserID := nid, Name := name, Email := email,
               Password := "external_auth" } },
         [.exec "SELECT MAX(UserID) FROM CW1.User",
          .exec "INSERT INTO CW1.User", .commit]) ∧
      nid = (match listMaxInt (conn.pending.users.map (fun r => r.UserID)) with
             | none => 1
             | some m => m + 1) :=
  ⟨_, rfl, rfl⟩

theorem get_user_by_email_insertUser {db : DB} {email : String} (row : UserRow)
    (h : get_user_by_email db email = none) (he : row.Email = email) :
    get_user_by_email (insertUser db row) email =
      some { user_id := row.UserID, name := row.Name, email := row.Email } :=
  get_user_by_email_append row h he db.trails

/-! ## Sample data for concrete evaluations -/

def userRowW : UserRow :=
  { UserID := 1, Name := "alice", Email := "a@x.com", Password := "external_auth" }

def trailRowW : TrailRow :=
  { TrailID := 1, TrailName := "Coast Path", Description := some "scenic",
    DateCreated := 7, CreatedBy := 1 }

def dbW : DB := { users := [userRowW], trails := [trailRowW] }

def connW : Conn := { committed := dbW, pending := dbW }

/-! ## Claims -/

/-- C2: verify_plymouth_credentials returns true iff the outbound call
came back with status 200 and a body exactly equal to
["Verified", "True"]; any other status or body shape yields false
rather than an error; a network/connection failure raises 503. -/
theorem C2_verify_strict :
    (∀ o : VerifyOutcome, verify_plymouth_credentials o = .ok true ↔
        o = .response 200 verifiedBody) ∧
    (∀ (s : Nat) (b : JsonValue),
        verify_plymouth_credentials (.response s b) = .ok false ↔
          ¬(s = 200 ∧ b = verifiedBody)) ∧
    verify_plymouth_credentials .networkFailure =
      .error (.http 503 "Could not connect to authentication service") := by
  refine ⟨?_, ?_, rfl⟩
  · intro o
    cases o with
    | networkFailure => simp [verify_plymouth_credentials]
    | response s b =>
      by_cases hs : s = 200
      · subst hs
        by_cases hb : b = verifiedBody <;> simp [verify_plymouth_credentials, hb]
      · simp [verify_plymouth_credentials, hs]
  · intro s b
    by_cases hs : s = 200
    · subst hs
      by_cases hb : b = verifiedBody <;> simp [verify_plymouth_credentials, hb]
    · simp [verify_plymouth_credentials, hs]

/-- Witness for C2 at a concrete outcome. -/
theorem C2_verify_strict_witness :
    verify_plymouth_credentials (.response 200 verifiedBody) = .ok true :=
  (C2_verify_strict.1 _).mpr rfl

/-- C4: decode_token fails with the Expired 401 exactly when the token
is authentic (right secret, allowed algorithm, well-formed) and the
current time exceeds its embedded expiry; it fails with the Invalid
401 exactly on a malformed token, an unsupported algorithm or a
signature (secret) mismatch; and every failure it raises is a 401. -/
theorem C4_decode_failure_kinds (t : Token) (secret : String)
    (algs : List String) (now : Nat) :
    (decode_token t secret algs now = .error (.http 401 "Token has expired") ↔
      (∃ p a, t = .signed p secret a ∧ a ∈ algs ∧ p.exp < now)) ∧
    (decode_token t secret algs now =
        .error (.http 401 "Could not validate credentials") ↔
      ((∃ raw, t = .malformed raw) ∨
       (∃ p s a, t = .signed p s a ∧ (a ∉ algs ∨ s ≠ secret)))) ∧
    (∀ e, decode_token t secret algs now = .error e → ∃ d, e = .http 401 d) := by
  cases t with
  | malformed raw =>
    have hd : decode_token (.malformed raw) secret algs now =
        .error (.http 401 "Could not validate credentials") := by
      simp [decode_token, jwtDecode]
    refine ⟨?_, ?_, ?_⟩
    · rw [hd]
      constructor
      · intro h
        injection h with h1
        injection h1 with h2 h3
        exact absurd h3 (by decide)
      · rintro ⟨p, a, h, -, -⟩
        exact absurd h (by simp)
    · rw [hd]
      constructor
      · intro h
        exact Or.inl ⟨raw, rfl⟩
      · intro h
        rfl
    · intro e he
      rw [hd] at he
      injection he with h
      exact ⟨_, h.symm⟩
  | signed p s a =>
    by_cases ha : a ∈ algs
    · by_cases hs : s = secret
      · subst hs
        by_cases he : p.exp < now
        · have hd : decode_token (.signed p s a) s algs now =
              .error (.http 401 "Token has expired") := by
            simp [decode_token, jwtDecode, ha, he]
          refine ⟨?_, ?_, ?_⟩
          · rw [hd]
            exact ⟨fun _ => ⟨p, a, rfl, ha, he⟩, fun _ => rfl⟩
          · rw [hd]
            constructor
            · intro h
              injection h with h1
              injection h1 with h2 h3
              exact absurd h3 (by decide)
            · rintro (⟨raw, hraw⟩ | ⟨p2, s2, a2, heq, hbad⟩)
              · exact absurd hraw (by simp)
              · injection heq with h1 h2 h3
                subst h1; subst h2; subst h3
                rcases hbad with hbad | hbad
                · exact absurd ha hbad
                · exact absurd rfl hbad
          · intro e hee
            rw [hd] at hee
            injection hee with h
            exact ⟨_, h.symm⟩
        · have hd : decode_token (.signed p s a) s algs now = .ok p := by
            simp [decode_token, jwtDecode, ha, he]
          refine ⟨?_, ?_, ?_⟩
          · rw [hd]
            constructor
            · intro h
              exact absurd h (by simp)
            · rintro ⟨p2, a2, h1, h2, hexp⟩
              injection h1 with g1 g2 g3
              subst g1; subst g3
              exact absurd hexp he
          · rw [hd]
            constructor
            · intro h
              exact absurd h (by simp)
            · rintro (⟨raw, hraw⟩ | ⟨p2, s2, a2, heq, hbad⟩)
              · exact absurd hraw (by simp)
              · injection heq with h1 h2 h3
                subst h1; subst h2; subst h3
                rcases hbad with hbad | hbad
                · exact absurd ha hbad
                · exact absurd rfl hbad
          · intro e hee
            rw [hd] at hee
            exact absurd hee (by simp)
      · have hd : decode_token (.signed p s a) secret algs now =
            .error (.http 401 "Could not validate credentials") := by
          simp [decode_token, jwtDecode, ha, hs]
        refine ⟨?_, ?_, ?_⟩
        · rw [hd]
          constructor
          · intro h
            injection h with g0
            injection g0 with g01 g02
            exact absurd g02 (by decide)
          · rintro ⟨p2, a2, h1, -, -⟩
            injection h1 with g1 g2 g3
            exact absurd g2 hs
        · rw [hd]
          exact ⟨fun _ => Or.inr ⟨p, s, a, rfl, Or.inr hs⟩, fun _ => rfl⟩
        · intro e hee
          rw [hd] at hee
          injection hee with h
          exact ⟨_, h.symm⟩
    · have hd : decode_token (.signed p s a) secret algs now =
          .error (.http 401 "Could not validate credentials") := by
        simp [decode_token, jwtDecode, ha]
      refine ⟨?_, ?_, ?_⟩
      · rw [hd]
        constructor
        · intro h
          injection h with g0
          injection g0 with g01 g02
          exact absurd g02 (by decide)
        · rintro ⟨p2, a2, h1, hmem, -⟩
          injection h1 with g1 g2 g3
          subst g3
          exact absurd hmem ha
      · rw [hd]
        exact ⟨fun _ => Or.inr ⟨p, s, a, rfl, Or.inl ha⟩, fun _ => rfl⟩
      · intro e hee
        rw [hd] at hee
        injection hee with h
        exact ⟨_, h.symm⟩

/-- Witness for C4 at a concrete expired token. -/
theorem C4_decode_failure_kinds_witness :
    decode_token (.signed ⟨⟨"a@x.com", 1, "alice"⟩, 10⟩ "s" "HS256")
      "s" ["HS256"] 11 = .error (.http 401 "Token has expired") :=
  (C4_decode_failure_kinds _ "s" ["HS256"] 11).1.mpr
    ⟨⟨⟨"a@x.com", 1, "alice"⟩, 10⟩, "HS256", rfl, by decide, by decide⟩

/-- C3: every token issued by a successful login (claims: subject
email, user_id, name; positive TTL) decodes, with the same secret and
algorithm and at any instant before the expiry, to exactly the
embedded subject email, user_id and name, with absolute expiry equal
to issue time plus the TTL. -/
theorem C3_token_roundtrip (form : LoginForm) (vo : VerifyOutcome)
    (conn : Conn) (insertFails : Bool) (errMsg : String) (now ttlMinutes : Nat)
    (secret alg : String) (resp : LoginResponse) (conn' : Conn)
    (tr : List DbAction) (t : Nat)
    (hlogin : login form vo conn insertFails errMsg now ttlMinutes secret alg =
      (.ok resp, conn', tr))
    (_hpos : 0 < ttlMinutes) (ht : t < now + ttlMinutes * 60) :
    decode_token resp.access_token secret [alg] t =
      .ok { data := { sub := form.username, user_id := resp.user.user_id,
                      name := resp.user.name },
            exp := now + ttlMinutes * 60 } := by
  unfold login at hlogin
  cases hv : verify_plymouth_credentials vo with
  | error e =>
    rw [hv] at hlogin
    simp at hlogin
  | ok b =>
    cases b with
    | false =>
      rw [hv] at hlogin
      simp at hlogin
    | true =>
      rw [hv] at hlogin
      rcases hg : get_or_create_user conn form.username true insertFails errMsg
        with ⟨r, c2, tr2⟩
      rw [hg] at hlogin
      cases r with
      | error e => simp at hlogin
      | ok user =>
        simp at hlogin
        obtain ⟨h1, h2, h3⟩ := hlogin
        subst h1
        have hexp : ¬ (now + ttlMinutes * 60 < t) := by omega
        simp [create_access_token, jwtEncode, decode_token, jwtDecode, hexp]

/-- Witness for C3 at a concrete login. -/
theorem C3_token_roundtrip_witness :
    decode_token (Token.signed ⟨⟨"a@x.com", 1, "alice"⟩, 1800⟩ "s" "HS256")
      "s" ["HS256"] 5 = .ok ⟨⟨"a@x.com", 1, "alice"⟩, 1800⟩ := by
  have h := C3_token_roundtrip ⟨"a@x.com", "pw"⟩ (.response 200 verifiedBody)
    connW false "" 0 30 "s" "HS256"
    ⟨(Token.signed ⟨⟨"a@x.com", 1, "alice"⟩, 1800⟩ "s" "HS256"), "bearer",
     ⟨1, "alice", "a@x.com"⟩⟩
    connW [.exec "SELECT User BY Email"] 5 (by decide) (by decide) (by decide)
  simpa using h

/-- C6: get_or_create_user on an absent email creates a user whose
name is the local part of the email when the flag is set (the
default) and the full email otherwise; after the first call, any
later call with that email returns the identical record, mutates
nothing and performs only the lookup (idempotence, name never
re-derived). -/
theorem C6_get_or_create (conn : Conn) (email errMsg : String)
    (habsent : get_user_by_email conn.pending email = none) :
    ∃ (u : UserView) (conn1 : Conn) (tr1 : List DbAction),
      get_or_create_user conn email true false errMsg = (.ok u, conn1, tr1) ∧
      u.name = localPartOfEmail email ∧ u.email = email ∧
      (∀ (flag2 fails2 : Bool) (errMsg2 : String),
        get_or_create_user conn1 email flag2 fails2 errMsg2 =
          (.ok u, conn1, [.exec "SELECT User BY Email"])) ∧
      (∀ errMsg3 : String, ∃ (u3 : UserView) (conn3 : Conn) (tr3 : List DbAction),
        get_or_create_user conn email false false errMsg3 = (.ok u3, conn3, tr3) ∧
        u3.name = email) := by
  obtain ⟨nid, hcr, -⟩ := create_user_spec conn email (localPartOfEmail email) errMsg
  refine ⟨⟨nid, localPartOfEmail email, email⟩,
    ⟨insertUser conn.pending
       { UserID := nid, Name := localPartOfEmail email, Email := email,
         Password := "external_auth" },
     insertUser conn.pending
       { UserID := nid, Name := localPartOfEmail email, Email := email,
         Password := "external_auth" }⟩,
    [.exec "SELECT User BY Email", .exec "SELECT MAX(UserID) FROM CW1.User",
     .exec "INSERT INTO CW1.User", .commit], ?_, rfl, rfl, ?_, ?_⟩
  · simp [get_or_create_user, habsent, hcr]
  · intro flag2 fails2 errMsg2
    have hfound := get_user_by_email_insertUser
      { UserID := nid, Name := localPartOfEmail email, Email := email,
        Password := "external_auth" } habsent rfl
    simp [get_or_create_user, hfound]
  · intro errMsg3
    obtain ⟨nid3, hcr3, -⟩ := create_user_spec conn email email errMsg3
    refine ⟨⟨nid3, email, email⟩,
      ⟨insertUser conn.pending
         { UserID := nid3, Name := email, Email := email,
           Password := "external_auth" },
       insertUser conn.pending
         { UserID := nid3, Name := email, Email := email,
           Password := "external_auth" }⟩,
      [.exec "SELECT User BY Email", .exec "SELECT MAX(UserID) FROM CW1.User",
       .exec "INSERT INTO CW1.User", .commit], ?_, rfl⟩
    simp [get_or_create_user, habsent, hcr3]

/-- Witness for C6 at a concrete connection with no matching user. -/
theorem C6_get_or_create_witness :
    ∃ (u : UserView) (conn1 : Conn) (tr1 : List DbAction),
      get_or_create_user connW "new@x.com" true false "" = (.ok u, conn1, tr1) ∧
      u.name = localPartOfEmail "new@x.com" ∧ u.email = "new@x.com" := by
  obtain ⟨u, c1, t1, h1, h2, h3, -, -⟩ :=
    C6_get_or_create connW "new@x.com" "" (by decide)
  exact ⟨u, c1, t1, h1, h2, h3⟩

/-- C7: create_user assigns user_id = (max existing UserID) + 1, and 1
on an empty table; the inserted row carries the sentinel password
external_auth; and when all existing ids are positive the assigned id
is a fresh positive integer not already present. -/
theorem C7_create_user_id (conn : Conn) (email name errMsg : String)
    (hpos : ∀ r ∈ conn.pending.users, 0 < r.UserID) :
    ∃ (u : UserView) (conn' : Conn) (tr : List DbAction),
      create_user conn email name false errMsg = (.ok u, conn', tr) ∧
      u.user_id = (match listMaxInt (conn.pending.users.map (fun r => r.UserID)) with
                   | none => 1
                   | some m => m + 1) ∧
      (conn.pending.users = [] → u.user_id = 1) ∧
      0 < u.user_id ∧
      (∀ r ∈ conn.pending.users, r.UserID ≠ u.user_id) ∧
      conn'.committed.users = conn.pending.users ++
        [{ UserID := u.user_id, Name := name, Email := email,
           Password := "external_auth" }] := by
  obtain ⟨nid, hcr, hnid⟩ := create_user_spec conn email name errMsg
  refine ⟨_, _, _, hcr, hnid, ?_, ?_, ?_, rfl⟩
  · intro hempty
    rw [hnid, hempty]
    rfl
  · cases hmax : listMaxInt (conn.pending.users.map (fun r => r.UserID)) with
    | none =>
      rw [hnid, hmax]
      simp
    | some m =>
      have hm : m ∈ conn.pending.users.map (fun r => r.UserID) := listMaxInt_mem hmax
      obtain ⟨r, hr, hrid⟩ := List.mem_map.mp hm
      have hm0 : r.UserID = m := hrid
      have hm1 := hpos r hr
      rw [hnid, hmax]
      show 0 < m + 1
      omega
  · intro r hr
    cases hmax : listMaxInt (conn.pending.users.map (fun r => r.UserID)) with
    | none =>
      have : conn.pending.users = [] :=
        List.map_eq_nil_iff.mp ((listMaxInt_eq_none_iff _).mp hmax)
      rw [this] at hr
      simp at hr
    | some m =>
      have hle : r.UserID ≤ m :=
        listMaxInt_le hmax _ (List.mem_map_of_mem (fun r => r.UserID) hr)
      rw [hnid, hmax]
      show r.UserID ≠ m + 1
      omega

/-- Witness for C7 at a concrete table holding one user with id 1. -/
theorem C7_create_user_id_witness :
    ∃ (u : UserView) (conn' : Conn) (tr : List DbAction),
      create_user connW "b@x.com" "bob" false "" = (.ok u, conn', tr) ∧
      0 < u.user_id ∧ (∀ r ∈ connW.pending.users, r.UserID ≠ u.user_id) := by
  obtain ⟨u, c, t, h1, -, -, h4, h5, -⟩ :=
    C7_create_user_id connW "b@x.com" "bob" "" (by decide)
  exact ⟨u, c, t, h1, h4, h5⟩

/-- C1: for every trail update or delete request: absent id → 404 and
no mutation; id present but requester ≠ recorded owner → 403 and no
mutation (the connection is returned untouched, the ownership
comparison having been made before any write); requester = owner →
the mutation proceeds, update returning the updated row and delete
returning success with the row gone. -/
theorem C1_update_delete_ownership (conn : Conn) (trail_id : Int)
    (body : TrailCreate) (user : UserView) :
    (∀ fails, lookupTrail conn.pending trail_id = none →
      update_trail trail_id body user conn fails =
        (.error (.http 404 "Trail not found"), conn, [.exec "SELECT CreatedBy"]) ∧
      delete_trail trail_id user conn fails =
        (.error (.http 404 "Trail not found"), conn, [.exec "SELECT CreatedBy"])) ∧
    (∀ fails t, lookupTrail conn.pending trail_id = some t →
      t.CreatedBy ≠ user.user_id →
      update_trail trail_id body user conn fails =
        (.error (.http 403 "Not authorized to update this trail"), conn,
         [.exec "SELECT CreatedBy"]) ∧
      delete_trail trail_id user conn fails =
        (.error (.http 403 "Not authorized to delete this trail"), conn,
         [.exec "SELECT CreatedBy"])) ∧
    (∀ t, lookupTrail conn.pending trail_id = some t →
      t.CreatedBy = user.user_id →
      (∃ (r : TrailRow) (conn' : Conn) (tr : List DbAction),
        update_trail trail_id body user conn false = (.ok r, conn', tr) ∧
        r.TrailID = trail_id ∧ r.TrailName = body.TrailName ∧
        r.Description = body.Description) ∧
      (∃ (conn'' : Conn) (tr' : List DbAction),
        delete_trail trail_id user conn false =
          (.ok "Trail deleted successfully", conn'', tr') ∧
        lookupTrail conn''.committed trail_id = none)) := by
  refine ⟨?_, ?_, ?_⟩
  · intro fails h
    exact ⟨by simp [update_trail, h], by simp [delete_trail, h]⟩
  · intro fails t h hne
    exact ⟨by simp [update_trail, h, hne], by simp [delete_trail, h, hne]⟩
  · intro t h hown
    have htid : t.TrailID = trail_id := lookupTrail_mem_self h
    have hlook : lookupTrail
        (updateTrailProc conn.pending trail_id body.TrailName body.Description)
        trail_id =
        some { t with TrailName := body.TrailName,
                      Description := body.Description } := by
      rw [lookupTrail_updateProc, h]
      simp [htid]
    constructor
    · refine ⟨{ t with TrailName := body.TrailName, Description := body.Description },
        ⟨updateTrailProc conn.pending trail_id body.TrailName body.Description,
         updateTrailProc conn.pending trail_id body.TrailName body.Description⟩,
        [.exec "SELECT CreatedBy", .exec "EXEC CW1.UpdateTrail", .commit,
         .exec "SELECT Trail BY id"], ?_, htid, rfl, rfl⟩
      simp [update_trail, h, hown, hlook]
    · refine ⟨⟨deleteTrailProc conn.pending trail_id,
        deleteTrailProc conn.pending trail_id⟩,
        [.exec "SELECT CreatedBy", .exec "EXEC CW1.DeleteTrail", .commit],
        ?_, ?_⟩
      · simp [delete_trail, h, hown]
      · exact lookupTrail_deleteProc_self conn.pending trail_id

/-- Witness for C1 at a concrete store: owner 1 updates trail 1, a
non-owner (id 2) is refused. -/
theorem C1_update_delete_ownership_witness :
    (update_trail 1 ⟨"New", none⟩ ⟨2, "bob", "b@x.com"⟩ connW false =
      (.error (.http 403 "Not authorized to update this trail"), connW,
       [.exec "SELECT CreatedBy"])) ∧
    (∃ (r : TrailRow) (conn' : Conn) (tr : List DbAction),
      update_trail 1 ⟨"New", none⟩ ⟨1, "alice", "a@x.com"⟩ connW false =
        (.ok r, conn', tr) ∧ r.TrailName = "New") := by
  constructor
  · exact ((C1_update_delete_ownership connW 1 ⟨"New", none⟩
      ⟨2, "bob", "b@x.com"⟩).2.1 false trailRowW (by decide) (by decide)).1
  · obtain ⟨⟨r, conn', tr, h1, -, h3, -⟩, -⟩ :=
      (C1_update_delete_ownership connW 1 ⟨"New", none⟩
        ⟨1, "alice", "a@x.com"⟩).2.2 trailRowW (by decide) (by decide)
    exact ⟨r, conn', tr, h1, h3⟩

/-- C8: a successful update changes only name and description: the
returned row keeps the trail's id, creation timestamp and owner, every
other id reads back unchanged, and (for the whole life of a trail)
none of the three store mutations — insert, update, delete — ever
changes the CreatedBy of a row that persists across it. -/
theorem C8_update_frame (conn : Conn) (trail_id : Int) (body : TrailCreate)
    (user : UserView) (t : TrailRow)
    (h : lookupTrail conn.pending trail_id = some t)
    (hown : t.CreatedBy = user.user_id) :
    (∃ (r : TrailRow) (conn' : Conn) (tr : List DbAction),
      update_trail trail_id body user conn false = (.ok r, conn', tr) ∧
      r.TrailID = t.TrailID ∧ r.DateCreated = t.DateCreated ∧
      r.CreatedBy = t.CreatedBy ∧
      r.TrailName = body.TrailName ∧ r.Description = body.Description ∧
      (∀ j, j ≠ trail_id →
        lookupTrail conn'.committed j = lookupTrail conn.pending j) ∧
      (∀ j t0 t1, lookupTrail conn.pending j = some t0 →
        lookupTrail conn'.committed j = some t1 →
        t1.CreatedBy = t0.CreatedBy)) ∧
    (∀ (db : DB) (n : String) (d : Option String) (ts : Nat) (cb j : Int)
       (t0 t1 : TrailRow), lookupTrail db j = some t0 →
       lookupTrail (addNewTrailProc db n d ts cb) j = some t1 →
       t1.CreatedBy = t0.CreatedBy) ∧
    (∀ (db : DB) (idd j : Int) (t0 t1 : TrailRow),
       lookupTrail db j = some t0 →
       lookupTrail (deleteTrailProc db idd) j = some t1 →
       t1.CreatedBy = t0.CreatedBy) ∧
    (∀ (db : DB) (idd : Int) (n : String) (d : Option String) (j : Int)
       (t0 t1 : TrailRow), lookupTrail db j = some t0 →
       lookupTrail (updateTrailProc db idd n d) j = some t1 →
       t1.CreatedBy = t0.CreatedBy) := by
  have hupd : ∀ (db : DB) (idd : Int) (n : String) (d : Option String) (j : Int)
      (t0 t1 : TrailRow), lookupTrail db j = some t0 →
      lookupTrail (updateTrailProc db idd n d) j = some t1 →
      t1.CreatedBy = t0.CreatedBy := by
    intro db idd n d j t0 t1 h0 h1
    rw [lookupTrail_updateProc, h0] at h1
    simp at h1
    by_cases hb : t0.TrailID = idd
    · simp [hb] at h1
      rw [← h1]
    · simp [hb] at h1
      rw [← h1]
  refine ⟨?_, ?_, ?_, hupd⟩
  · have htid : t.TrailID = trail_id := lookupTrail_mem_self h
    have hlook : lookupTrail
        (updateTrailProc conn.pending trail_id body.TrailName body.Description)
        trail_id =
        some { t with TrailName := body.TrailName,
                      Description := body.Description } := by
      rw [lookupTrail_updateProc, h]
      simp [htid]
    refine ⟨{ t with TrailName := body.TrailName, Description := body.Description },
      ⟨updateTrailProc conn.pending trail_id body.TrailName body.Description,
       updateTrailProc conn.pending trail_id body.TrailName body.Description⟩,
      [.exec "SELECT CreatedBy", .exec "EXEC CW1.UpdateTrail", .commit,
       .exec "SELECT Trail BY id"],
      ?_, rfl, rfl, rfl, rfl, rfl, ?_, ?_⟩
    · simp [update_trail, h, hown, hlook]
    · intro j hj
      show lookupTrail (updateTrailProc conn.pending trail_id
        body.TrailName body.Description) j = lookupTrail conn.pending j
      rw [lookupTrail_updateProc]
      cases hl : lookupTrail conn.pending j with
      | none => rfl
      | some t0 =>
        have : t0.TrailID = j := lookupTrail_mem_self hl
        simp [this, hj]
    · intro j t0 t1 h0 h1
      exact hupd conn.pending trail_id body.TrailName body.Description j t0 t1 h0 h1
  · intro db n d ts cb j t0 t1 h0 h1
    rw [lookupTrail_addNew_frame db n d ts cb h0] at h1
    injection h1 with h1
    rw [← h1]
  · intro db idd j t0 t1 h0 h1
    by_cases hj : j = idd
    · subst hj
      rw [lookupTrail_deleteProc_self] at h1
      exact absurd h1 (by simp)
    · rw [lookupTrail_deleteProc_other db idd j hj, h0] at h1
      injection h1 with h1
      rw [← h1]

/-- Witness for C8 at a concrete successful update. -/
theorem C8_update_frame_witness :
    ∃ (r : TrailRow) (conn' : Conn) (tr : List DbAction),
      update_trail 1 ⟨"New", some "d2"⟩ ⟨1, "alice", "a@x.com"⟩ connW false =
        (.ok r, conn', tr) ∧
      r.DateCreated = trailRowW.DateCreated ∧ r.CreatedBy = trailRowW.CreatedBy := by
  obtain ⟨⟨r, conn', tr, h1, -, h3, h4, -, -, -, -⟩, -, -, -⟩ :=
    C8_update_frame connW 1 ⟨"New", some "d2"⟩ ⟨1, "alice", "a@x.com"⟩
      trailRowW (by decide) (by decide)
  exact ⟨r, conn', tr, h1, h3, h4⟩

/-- C10 (implicit): a trail created through the authenticated
create_trail route always has CreatedBy equal to the user_id of the
requester as resolved by the auth guard (token subject looked up in
the User table); the request body (TrailCreate: TrailName and
optional Description only) plays no part in the owner. -/
theorem C10_created_by_is_requester (token : Token) (db : DB) (secret : String)
    (algs : List String) (now : Nat) (u : UserView)
    (hauth : get_current_user token db secret algs now = .ok u) :
    (∃ p, decode_token token secret algs now = .ok p ∧
      get_user_by_email db p.data.sub = some u) ∧
    (∀ (body : TrailCreate) (conn : Conn) (now2 : Nat),
      ∃ (r : TrailRow) (conn' : Conn) (tr : List DbAction),
        create_trail body u conn now2 false = (.ok r, conn', tr) ∧
        r.CreatedBy = u.user_id ∧
        conn'.committed.trails = conn.pending.trails ++ [r]) := by
  constructor
  · cases hd : decode_token token secret algs now with
    | error e =>
      have hgc : get_current_user token db secret algs now =
          .error credentials_exception := by
        simp [get_current_user, hd]
      rw [hgc] at hauth
      exact absurd hauth (by simp)
    | ok p =>
      cases hl : get_user_by_email db p.data.sub with
      | none =>
        have hgc : get_current_user token db secret algs now =
            .error credentials_exception := by
          simp [get_current_user, hd, hl]
        rw [hgc] at hauth
        exact absurd hauth (by simp)
      | some u' =>
        have hgc : get_current_user token db secret algs now = .ok u' := by
          simp [get_current_user, hd, hl]
        rw [hgc] at hauth
        injection hauth with hu
        subst hu
        exact ⟨p, rfl, hl⟩
  · intro body conn now2
    refine ⟨{ TrailID := nextTrailId conn.pending, TrailName := body.TrailName,
              Description := body.Description, DateCreated := now2,
              CreatedBy := u.user_id },
      ⟨addNewTrailProc conn.pending body.TrailName body.Description now2 u.user_id,
       addNewTrailProc conn.pending body.TrailName body.Description now2 u.user_id⟩,
      [.exec "EXEC CW1.AddNewTrail", .commit, .exec "SELECT TOP 1 BY TrailID DESC"],
      ?_, rfl, rfl⟩
    simp [create_trail, latestTrail_addNew]

/-- Witness for C10 at a concrete token and store. -/
theorem C10_created_by_is_requester_witness :
    ∃ (r : TrailRow) (conn' : Conn) (tr : List DbAction),
      create_trail ⟨"T2", none⟩ ⟨1, "alice", "a@x.com"⟩ connW 9 false =
        (.ok r, conn', tr) ∧ r.CreatedBy = 1 := by
  obtain ⟨-, h2⟩ := C10_created_by_is_requester
    (.signed ⟨⟨"a@x.com", 1, "alice"⟩, 100⟩ "s" "HS256") dbW "s" ["HS256"] 3
    ⟨1, "alice", "a@x.com"⟩ (by decide)
  obtain ⟨r, conn', tr, hr1, hr2, -⟩ := h2 ⟨"T2", none⟩ connW 9
  exact ⟨r, conn', tr, hr1, hr2⟩

/-- C9: the login flow maps an unreachable verifier to 503 and a
failed verification to 401 (their precise status codes, outside the
try block); an exception during local user resolution (step 3) is
caught and surfaced as a generic 500 whose detail wraps the underlying
message; and a generic 500 arises from exactly that step and no other
(token issuance is pure computation and raises nothing). -/
theorem C9_login_error_mapping (form : LoginForm) (conn : Conn)
    (insertFails : Bool) (errMsg : String) (now ttlMinutes : Nat)
    (secret alg : String) :
    (login form .networkFailure conn insertFails errMsg now ttlMinutes secret alg =
      (.error (.http 503 "Could not connect to authentication service"),
       conn, [])) ∧
    (∀ vo, verify_plymouth_credentials vo = .ok false →
      login form vo conn insertFails errMsg now ttlMinutes secret alg =
        (.error (.http 401 "Incorrect email or password"), conn, [])) ∧
    (∀ vo, verify_plymouth_credentials vo = .ok true →
      get_user_by_email conn.pending form.username = none →
      insertFails = true →
      (login form vo conn insertFails errMsg now ttlMinutes secret alg).1 =
        .error (.http 500 ("Error during user management: " ++
          errStr (.http 500 ("Error creating user: " ++ errMsg))))) ∧
    (∀ vo res conn' tr d,
      login form vo conn insertFails errMsg now ttlMinutes secret alg =
        (res, conn', tr) →
      res = .error (.http 500 d) →
      verify_plymouth_credentials vo = .ok true ∧
      get_user_by_email conn.pending form.username = none ∧
      insertFails = true ∧
      d = "Error during user management: " ++
        errStr (.http 500 ("Error creating user: " ++ errMsg))) := by
  refine ⟨?_, ?_, ?_, ?_⟩
  · simp [login, verify_plymouth_credentials]
  · intro vo h
    simp [login, h]
  · intro vo hv habs hf
    subst hf
    simp [login, hv, get_or_create_user, habs, create_user]
  · intro vo res conn' tr d hlogin hres
    subst hres
    unfold login at hlogin
    cases hv : verify_plymouth_credentials vo with
    | error e =>
      rw [hv] at hlogin
      have he : e = .http 503 "Could not connect to authentication service" := by
        cases vo with
        | networkFailure =>
          simp [verify_plymouth_credentials] at hv
          exact hv.symm
        | response s b =>
          by_cases hs : s = 200 <;> simp [verify_plymouth_credentials, hs] at hv
      subst he
      simp at hlogin
    | ok b =>
      cases b with
      | false =>
        rw [hv] at hlogin
        simp at hlogin
      | true =>
        rw [hv] at hlogin
        cases hl : get_user_by_email conn.pending form.username with
        | some u0 =>
          have hgc : get_or_create_user conn form.username true insertFails errMsg =
              (.ok u0, conn, [.exec "SELECT User BY Email"]) := by
            simp [get_or_create_user, hl]
          rw [hgc] at hlogin
          simp at hlogin
        | none =>
          cases insertFails with
          | false =>
            obtain ⟨nid, hcr, -⟩ := create_user_spec conn form.username
              (localPartOfEmail form.username) errMsg
            have hgc : get_or_create_user conn form.username true false errMsg =
                (.ok { user_id := nid, name := localPartOfEmail form.username,
                       email := form.username },
                 ⟨insertUser conn.pending
                    { UserID := nid, Name := localPartOfEmail form.username,
                      Email := form.username, Password := "external_auth" },
                  insertUser conn.pending
                    { UserID := nid, Name := localPartOfEmail form.username,
                      Email := form.username, Password := "external_auth" }⟩,
                 [.exec "SELECT User BY Email",
                  .exec "SELECT MAX(UserID) FROM CW1.User",
                  .exec "INSERT INTO CW1.User", .commit]) := by
              simp [get_or_create_user, hl, hcr]
            rw [hgc] at hlogin
            simp at hlogin
          | true =>
            have hgc : get_or_create_user conn form.username true true errMsg =
                (.error (.http 500 ("Error creating user: " ++ errMsg)),
                 { conn with pending := conn.committed },
                 [.exec "SELECT User BY Email",
                  .exec "SELECT MAX(UserID) FROM CW1.User",
                  .exec "INSERT INTO CW1.User", .rollback]) := by
              simp [get_or_create_user, hl, create_user]
            rw [hgc] at hlogin
            simp at hlogin
            obtain ⟨hd, -, -⟩ := hlogin
            exact ⟨rfl, rfl, rfl, hd.symm⟩

/-- Witness for C9: a concrete step-3 failure is surfaced as the
generic 500 wrapping the underlying message. -/
theorem C9_login_error_mapping_witness :
    (login ⟨"new@x.com", "pw"⟩ (.response 200 verifiedBody) connW true "boom"
      0 30 "s" "HS256").1 =
      .error (.http 500 ("Error during user management: " ++
        errStr (.http 500 ("Error creating user: " ++ "boom")))) :=
  (C9_login_error_mapping ⟨"new@x.com", "pw"⟩ connW true "boom" 0 30
    "s" "HS256").2.2.1 (.response 200 verifiedBody) (by decide) (by decide) rfl

/-- C5 counterexample: in the trail-creation handler a failed database
write surfaces the error without any rollback having been performed —
refuting the claim that every write operation rolls back before its
error is surfaced. -/
theorem C5_counterexample :
    (create_trail ⟨"T", none⟩ ⟨1, "alice", "a@x.com"⟩ connW 5 true).1 =
      .error (.unhandled "AddNewTrail failed") ∧
    DbAction.rollback ∉
      (create_trail ⟨"T", none⟩ ⟨1, "alice", "a@x.com"⟩ connW 5 true).2.2 := by
  decide

/-- C5 (amended): user creation rolls back before surfacing its 500 on
a failed write, leaving the committed store unchanged, and commits on
success; trail creation, update and deletion never perform a rollback
on a failed write — the exception propagates uncaught with the
connection untouched (so nothing was committed either) — and commit
on success. -/
theorem C5_write_atomicity (conn : Conn) (email name errMsg : String)
    (body : TrailCreate) (user : UserView) (trail_id : Int) (now : Nat) :
    (∃ (e : ApiError) (conn' : Conn),
      create_user conn email name true errMsg =
        (.error e, conn',
         [.exec "SELECT MAX(UserID) FROM CW1.User",
          .exec "INSERT INTO CW1.User", .rollback]) ∧
      conn'.committed = conn.committed ∧ conn'.pending = conn.committed) ∧
    (DbAction.commit ∈ (create_user conn email name false errMsg).2.2) ∧
    ((create_trail body user conn now true).1 =
        .error (.unhandled "AddNewTrail failed") ∧
      DbAction.rollback ∉ (create_trail body user conn now true).2.2 ∧
      (create_trail body user conn now true).2.1 = conn) ∧
    (DbAction.commit ∈ (create_trail body user conn now false).2.2) ∧
    (∀ t, lookupTrail conn.pending trail_id = some t →
      t.CreatedBy = user.user_id →
      ((update_trail trail_id body user conn true).1 =
          .error (.unhandled "UpdateTrail failed") ∧
        DbAction.rollback ∉ (update_trail trail_id body user conn true).2.2 ∧
        (update_trail trail_id body user conn true).2.1 = conn) ∧
      ((delete_trail trail_id user conn true).1 =
          .error (.unhandled "DeleteTrail failed") ∧
        DbAction.rollback ∉ (delete_trail trail_id user conn true).2.2 ∧
        (delete_trail trail_id user conn true).2.1 = conn) ∧
      (DbAction.commit ∈ (update_trail trail_id body user conn false).2.2) ∧
      (DbAction.commit ∈ (delete_trail trail_id user conn false).2.2)) := by
  refine ⟨?_, ?_, ?_, ?_, ?_⟩
  · exact ⟨.http 500 ("Error creating user: " ++ errMsg),
      { conn with pending := conn.committed }, rfl, rfl, rfl⟩
  · obtain ⟨nid, hcr, -⟩ := create_user_spec conn email name errMsg
    rw [hcr]
    simp
  · refine ⟨rfl, ?_, rfl⟩
    simp [create_trail]
  · cases hla : latestTrail (addNewTrailProc conn.pending body.TrailName
      body.Description now user.user_id) with
    | none => simp [create_trail, hla]
    | some t => simp [create_trail, hla]
  · intro t h hown
    refine ⟨?_, ?_, ?_, ?_⟩
    · refine ⟨?_, ?_, ?_⟩ <;> simp [update_trail, h, hown]
    · refine ⟨?_, ?_, ?_⟩ <;> simp [delete_trail, h, hown]
    · cases hlk : lookupTrail (updateTrailProc conn.pending trail_id
        body.TrailName body.Description) trail_id with
      | none => simp [update_trail, h, hown, hlk]
      | some t2 => simp [update_trail, h, hown, hlk]
    · simp [delete_trail, h, hown]

/-- Witness for C5 (amended) at a concrete owner-held trail. -/
theorem C5_write_atomicity_witness :
    (update_trail 1 ⟨"T", none⟩ ⟨1, "alice", "a@x.com"⟩ connW true).1 =
      .error (.unhandled "UpdateTrail failed") ∧
    DbAction.rollback ∉
      (update_trail 1 ⟨"T", none⟩ ⟨1, "alice", "a@x.com"⟩ connW true).2.2 := by
  obtain ⟨⟨h1, h2, -⟩, -⟩ :=
    (C5_write_atomicity connW "e" "n" "m" ⟨"T", none⟩ ⟨1, "alice", "a@x.com"⟩
      1 0).2.2.2.2 trailRowW (by decide) (by decide)
  exact ⟨h1, h2⟩

end TrailService
